import Mathlib

/-!
Verification of the resource-management and pooling subsystem of the
`gather` HTTP-collection library (github.com/yudeguang17/gather).

The Go source is shallowly embedded here:
* durations (`time.Duration`, int64 nanoseconds) become `Int` nanoseconds;
* Go `int` becomes `Int`;
* the float64 ratio arithmetic of the timeout-derivation code
  (`time.Duration(float64(t) * 0.2)`, `int(float64(n) * ratio)`) is
  abstracted to exact rational scaling truncated toward zero — the ratios
  0.2 / 0.1 / 0.4 are modelled as 1/5, 1/10, 2/5;
* `panic` paths become explicit result constructors, leaving state
  untouched;
* the process-global mutable variables (`globalConfig`,
  `transportNoProxy`, the proxy transport cache) become explicit state
  records threaded through the functions that read or write them.
-/

namespace Conf

/-- Nanoseconds, mirroring Go `time.Duration`. -/
abbrev Duration := Int

/-- One second in nanoseconds (`time.Second`). -/
def second : Duration := 1000000000

/-- One millisecond in nanoseconds (`time.Millisecond`). -/
def millisecond : Duration := 1000000

/-- `GatherConfig` from the configuration file of the package: the full
behavioral profile held by the global registry. -/
structure GatherConfig where
  maxIdleConns : Int
  maxIdleConnsPerHost : Int
  idleConnTimeout : Duration
  tlsInsecureSkipVerify : Bool
  dialTimeout : Duration
  tlsHandshakeTimeout : Duration
  expectContinueTimeout : Duration
  responseHeaderTimeout : Duration
  disableCompression : Bool
  forceAttemptHTTP2 : Bool
  tcpLinger : Int
  keepAlive : Duration
deriving DecidableEq, Repr

/-- The fields whose validation can fail in `SetGatherConfig`; each
constructor stands for one of the error messages collected into
`errMsgs`. -/
inductive FieldErr where
  | maxIdleConnsErr
  | maxIdleConnsPerHostErr
  | idleConnTimeoutErr
  | dialTimeoutErr
  | tlsHandshakeTimeoutErr
  | expectContinueTimeoutErr
  | responseHeaderTimeoutErr
  | tcpLingerErr
  | keepAliveErr
deriving DecidableEq, Repr

/-- The validation pass of `SetGatherConfig`: each field check appends its
error message to `errMsgs`; the checks run in source order and all of them
run (batch collection, not first-failure). -/
def validationErrors (cfg : GatherConfig) : List FieldErr :=
  (if cfg.maxIdleConns ≤ 0 then [FieldErr.maxIdleConnsErr] else []) ++
  (if cfg.maxIdleConnsPerHost ≤ 0 then [FieldErr.maxIdleConnsPerHostErr] else []) ++
  (if cfg.idleConnTimeout ≤ 0 then [FieldErr.idleConnTimeoutErr] else []) ++
  (if cfg.dialTimeout < 0 then [FieldErr.dialTimeoutErr] else []) ++
  (if cfg.tlsHandshakeTimeout < 0 then [FieldErr.tlsHandshakeTimeoutErr] else []) ++
  (if cfg.expectContinueTimeout < 0 then [FieldErr.expectContinueTimeoutErr] else []) ++
  (if cfg.responseHeaderTimeout < 0 then [FieldErr.responseHeaderTimeoutErr] else []) ++
  (if cfg.tcpLinger < 0 then [FieldErr.tcpLingerErr] else []) ++
  (if cfg.keepAlive ≤ 0 then [FieldErr.keepAliveErr] else [])

/-- Which configurations violate which validation rule (the spec-level
reading of the rules of `SetGatherConfig`). -/
def violates (cfg : GatherConfig) : FieldErr → Prop
  | .maxIdleConnsErr => cfg.maxIdleConns ≤ 0
  | .maxIdleConnsPerHostErr => cfg.maxIdleConnsPerHost ≤ 0
  | .idleConnTimeoutErr => cfg.idleConnTimeout ≤ 0
  | .dialTimeoutErr => cfg.dialTimeout < 0
  | .tlsHandshakeTimeoutErr => cfg.tlsHandshakeTimeout < 0
  | .expectContinueTimeoutErr => cfg.expectContinueTimeout < 0
  | .responseHeaderTimeoutErr => cfg.responseHeaderTimeout < 0
  | .tcpLingerErr => cfg.tcpLinger < 0
  | .keepAliveErr => cfg.keepAlive ≤ 0

instance (cfg : GatherConfig) (f : FieldErr) : Decidable (violates cfg f) := by
  cases f <;> simp only [violates] <;> infer_instance

/-- A transport as built by `newTransport` in the configuration file: it
snapshots the configuration it was built from and remembers whether a
proxy function was installed. -/
structure TransportP0 where
  cfg : GatherConfig
  hasProxy : Bool
deriving DecidableEq, Repr

/-- The process-global registry state: `globalConfig` (always non-nil
after package `init`) and the no-proxy transport singleton
`transportNoProxy`. -/
structure GState where
  globalConfig : GatherConfig
  transportNoProxy : Option TransportP0
deriving DecidableEq, Repr

/-- Result of a call to `SetGatherConfig` or
`SetGatherConfigByClientTimeout`: success, panic on a nil configuration,
panic with the batch of validation errors, or panic on a non-positive
total timeout. -/
inductive SetConfigResult where
  | ok
  | nilPanic
  | invalidPanic (errs : List FieldErr)
  | badTotalTimeoutPanic
deriving DecidableEq, Repr

/-- `SetGatherConfig`: nil check first, then batch validation; on any
failure the function panics (state unchanged); on success it resets the
no-proxy transport singleton and installs the new configuration. -/
def setGatherConfig (ocfg : Option GatherConfig) (s : GState) :
    GState × SetConfigResult :=
  match ocfg with
  | none => (s, .nilPanic)
  | some cfg =>
    let errs := validationErrors cfg
    if errs = [] then
      ({ globalConfig := cfg, transportNoProxy := none }, .ok)
    else
      (s, .invalidPanic errs)

/-- Exact-rational stand-in for `time.Duration(float64(t) * (num/den))`:
multiply and truncate toward zero (Go float-to-int conversion truncates;
for the nanosecond magnitudes involved the float64 rounding is below one
nanosecond of the exact value). -/
def scaleDur (t : Duration) (num den : Int) : Duration :=
  (t * num) / den

/-- The pure derivation inside `SetGatherConfigByClientTimeout`: splits a
total timeout into phase timeouts with floors, picks the profile-specific
fixed settings, and (slow profile) forces the response-header timeout to
0.  Returns `none` exactly when the code panics (`totalTimeout ≤ 0`). -/
def deriveGatherConfig (totalTimeout : Duration) (isSlowConn tlsInsecure : Bool) :
    Option GatherConfig :=
  if totalTimeout ≤ 0 then none
  else
    let minDialTimeout : Duration := 1 * second
    let minTLSTimeout : Duration := 1 * second
    let minExpectTimeout : Duration := 500 * millisecond
    let minResponseHeaderTimeout : Duration := 2 * second
    let idleConnTimeout : Duration := if isSlowConn then 90 * second else 30 * second
    let keepAlive : Duration := if isSlowConn then 60 * second else 30 * second
    let disableCompression : Bool := if isSlowConn then false else true
    let forceHTTP2 : Bool := if isSlowConn then false else true
    let tcpLinger : Int := if isSlowConn then 1 else 0
    let dialTimeout := max (scaleDur totalTimeout 1 5) minDialTimeout
    let tlsHandshakeTimeout := max (scaleDur totalTimeout 1 5) minTLSTimeout
    let expectContinueTimeout := max (scaleDur totalTimeout 1 10) minExpectTimeout
    let responseHeaderTimeout0 := max (scaleDur totalTimeout 2 5) minResponseHeaderTimeout
    let responseHeaderTimeout := if isSlowConn then 0 else responseHeaderTimeout0
    some
      { maxIdleConns := 100
        maxIdleConnsPerHost := 100
        idleConnTimeout := idleConnTimeout
        tlsInsecureSkipVerify := tlsInsecure
        dialTimeout := dialTimeout
        tlsHandshakeTimeout := tlsHandshakeTimeout
        expectContinueTimeout := expectContinueTimeout
        responseHeaderTimeout := responseHeaderTimeout
        disableCompression := disableCompression
        forceAttemptHTTP2 := forceHTTP2
        tcpLinger := tcpLinger
        keepAlive := keepAlive }

/-- `SetGatherConfigByClientTimeout`: derive the configuration, then hand
it to `SetGatherConfig` (which re-validates it). -/
def setGatherConfigByClientTimeout (totalTimeout : Duration)
    (isSlowConn tlsInsecure : Bool) (s : GState) : GState × SetConfigResult :=
  match deriveGatherConfig totalTimeout isSlowConn tlsInsecure with
  | none => (s, .badTotalTimeoutPanic)
  | some cfg => setGatherConfig (some cfg) s

/-- `getHttpTransport` of the configuration file: the no-proxy case reuses
the singleton (creating it from the current global configuration when
absent); a non-empty proxy key builds a fresh transport on every call. -/
def getHttpTransport (proxyURL : String) (s : GState) : TransportP0 × GState :=
  if proxyURL = "" then
    match s.transportNoProxy with
    | some t => (t, s)
    | none =>
      let t : TransportP0 := { cfg := s.globalConfig, hasProxy := false }
      (t, { s with transportNoProxy := some t })
  else
    ({ cfg := s.globalConfig, hasProxy := true }, s)

end Conf

/-- A parsed URL as far as this subsystem looks at it: the raw text and
the optional embedded credentials (`url.UserPassword`). -/
structure URLM where
  raw : String
  userinfo : Option (String × String)
deriving DecidableEq, Repr

namespace NewGo

/-!
Embedding of the transport factory of `new.go`: package-level defaults,
the no-proxy singleton, the proxy-keyed transport cache, and the
authenticated-proxy construction path.
-/

/-- Package variable `MaxIdleConns`. -/
def MaxIdleConnsVar : Int := 100

/-- Package variable `MaxIdleConnsPerHostNoProxy` (0.2 as an exact
rational). -/
def MaxIdleConnsPerHostNoProxy : ℚ := 1 / 5

/-- Package variable `MaxIdleConnsPerHostWithProxy` (0.1 as an exact
rational). -/
def MaxIdleConnsPerHostWithProxy : ℚ := 1 / 10

/-- A transport built by `newBaseTransport` plus the per-call adjustments
of `getHttpTransport`; `id` is a creation counter so that distinct
constructions are distinguishable (Go pointer identity). -/
structure TransportM where
  id : ℕ
  proxyKey : Option String
  maxIdleConnsPerHost : Int
deriving DecidableEq, Repr

/-- The globals of `new.go` guarded by `noProxyLocker` /
`proxyMapLocker`: the no-proxy singleton `transportNoProxy`, the keyed
cache `transportProxyMap`, and a fresh-identity counter. -/
structure CacheSt where
  noProxy : Option TransportM
  proxyMap : List (String × TransportM)
  nextId : ℕ
deriving DecidableEq, Repr

/-- The empty initial cache (package start-up). -/
def initCache : CacheSt := { noProxy := none, proxyMap := [], nextId := 0 }

/-- `getHttpTransport` of `new.go`: the no-proxy case check-then-creates
the singleton; a non-empty proxy key check-then-creates against the keyed
cache.  Both branches run under their locks in Go, so two calls are
linearized; the model is that linearization. -/
def getHttpTransport (proxyURL : String) (s : CacheSt) : TransportM × CacheSt :=
  if proxyURL = "" then
    match s.noProxy with
    | some t => (t, s)
    | none =>
      let t : TransportM :=
        { id := s.nextId, proxyKey := none
          maxIdleConnsPerHost :=
            max ⌊(MaxIdleConnsVar : ℚ) * MaxIdleConnsPerHostNoProxy⌋ 1 }
      (t, { s with noProxy := some t, nextId := s.nextId + 1 })
  else
    match s.proxyMap.lookup proxyURL with
    | some t => (t, s)
    | none =>
      let t : TransportM :=
        { id := s.nextId, proxyKey := some proxyURL
          maxIdleConnsPerHost :=
            max ⌊(MaxIdleConnsVar : ℚ) * MaxIdleConnsPerHostWithProxy⌋ 1 }
      (t, { s with proxyMap := (proxyURL, t) :: s.proxyMap, nextId := s.nextId + 1 })

/-- Substring occurrence on character lists (structural recursion, so it
evaluates inside the kernel). -/
def containsSubList (l sub : List Char) : Bool :=
  match l with
  | [] => sub.isEmpty
  | _ :: t => sub.isPrefixOf l || containsSubList t sub

/-- `strings.Contains`. -/
def containsStr (s sub : String) : Bool :=
  containsSubList s.toList sub.toList

/-- `parseProxyURLWithAuth`: complete a missing scheme, parse (the
parser of `net/url` is a parameter of the embedding), report parse
failures as wrapped errors, and embed credentials when both user and
pass are non-empty. -/
def parseProxyURLWithAuth (urlParse : String → Except String URLM)
    (proxyUrl user pass : String) : Except String URLM :=
  let proxyUrl2 := if containsStr proxyUrl "http" then proxyUrl else "http://" ++ proxyUrl
  match urlParse proxyUrl2 with
  | .error e => .error ("parse proxy url [" ++ proxyUrl2 ++ "] failed: " ++ e)
  | .ok u =>
    .ok (if user ≠ "" && pass ≠ "" then { u with userinfo := some (user, pass) } else u)

/-- A transport built by `newBaseTransportWithAuth`: carries the
authenticated proxy URL it was wired to. -/
structure TransportAuthM where
  proxy : URLM
deriving DecidableEq, Repr

/-- `newBaseTransportWithAuth`. -/
def newBaseTransportWithAuth (proxyURL : URLM) : TransportAuthM :=
  { proxy := proxyURL }

/-- `getHttpTransportHasPass` of `new.go`: on a parse failure it logs and
returns nil (`none`); the error value itself is not propagated. -/
def getHttpTransportHasPass (urlParse : String → Except String URLM)
    (proxyUrl user pass : String) : Option TransportAuthM :=
  match parseProxyURLWithAuth urlParse proxyUrl user pass with
  | .error _ => none
  | .ok u => some (newBaseTransportWithAuth u)

/-- The `http.Client` part of a `GatherStruct` as far as the
authenticated-proxy constructor configures it. -/
structure ClientM where
  transport : Option TransportAuthM
  hasJar : Bool
  timeoutSeconds : Int
deriving DecidableEq, Repr

/-- The result of `NewGatherUtilHasPass`; note the Go signature returns
only `*GatherStruct` — there is no error component. -/
structure GatherHasPassM where
  client : ClientM
deriving DecidableEq, Repr

/-- `NewGatherUtilHasPass` of `new.go` (header bookkeeping omitted — it
does not touch the client): when the authenticated transport cannot be
built the function logs and falls back to a basic `http.Client` with no
transport and no cookie jar. -/
def newGatherUtilHasPass (urlParse : String → Except String URLM)
    (proxyURL user pass : String) (timeOut : Int) : GatherHasPassM :=
  let timeout := if timeOut ≤ 0 then 0 else timeOut
  match getHttpTransportHasPass urlParse proxyURL user pass with
  | none => { client := { transport := none, hasJar := false, timeoutSeconds := timeout } }
  | some t => { client := { transport := some t, hasJar := true, timeoutSeconds := timeout } }

end NewGo

namespace Gz

/-!
Embedding of `Ungzip` from `util.go`.  Bytes are `List Nat`; the actual
gzip stream decoder (`gzip.NewReader` + `io.ReadAll`) is an external
library and enters as a parameter.
-/

/-- The gzip signature test of `Ungzip`: at least two bytes and the magic
bytes 0x1F 0x8B in front. -/
def hasGzipMagic (data : List Nat) : Prop :=
  2 ≤ data.length ∧ data[0]? = some 0x1F ∧ data[1]? = some 0x8B

instance (data : List Nat) : Decidable (hasGzipMagic data) := by
  unfold hasGzipMagic; infer_instance

/-- `Ungzip`: empty data passes through as the empty string; data without
the gzip magic passes through unchanged with no error; signed data is
decoded, and a decoder failure is returned as the error. -/
def Ungzip (gzipDecode : List Nat → Except String (List Nat))
    (data : List Nat) : Except String (List Nat) :=
  if data.length = 0 then .ok []
  else if data.length < 2 ∨ data[0]? ≠ some 0x1F ∨ data[1]? ≠ some 0x8B then .ok data
  else
    match gzipDecode data with
    | .error e => .error e
    | .ok out => .ok out

end Gz

namespace Hdr

/-!
Embedding of the request-scoped header construction (`newHttpRequest` in
`util.go`) and of the header effects of the exchange operations (`GetUtil`
in the GET file, `PostUtil` / `PostMultipartFormDataUtil` in `post.go`).
The persistent `safeHeaders` store (`sync.Map`) is an association list;
request bodies and the network call are irrelevant to the header claims
and are omitted.  `http.Header.Set` key canonicalization is omitted: it
never touches the persistent store either way.
-/

/-- `sync.Map.Store` / `http.Header.Set`: replace the binding of `k` if
present, otherwise append it. -/
def storeHeader (hs : List (String × String)) (k v : String) :
    List (String × String) :=
  if hs.any (fun p => p.1 = k) then hs.map (fun p => if p.1 = k then (k, v) else p)
  else hs ++ [(k, v)]

/-- `sync.Map.Load`. -/
def loadHeader (hs : List (String × String)) (k : String) : Option String :=
  (hs.find? (fun p => p.1 = k)).map (fun p => p.2)

/-- An outgoing `http.Request` as far as headers are concerned. -/
structure RequestM where
  method : String
  url : String
  headers : List (String × String)
deriving DecidableEq, Repr

/-- A `GatherStruct` as far as its persistent header store is
concerned. -/
structure GatherStructM where
  safeHeaders : List (String × String)
deriving DecidableEq, Repr

/-- The request-header construction inside `newHttpRequest`: copy every
non-empty persistent binding into a fresh header map, then overlay the
optional referer and the optional cookie string on that fresh map. -/
def buildRequestHeaders (g : GatherStructM) (refererURL cookies : String) :
    List (String × String) :=
  let rh := g.safeHeaders.foldl
    (fun acc p => if p.1 ≠ "" ∧ p.2 ≠ "" then storeHeader acc p.1 p.2 else acc) []
  let rh2 := if refererURL ≠ "" then storeHeader rh "Referer" refererURL else rh
  if cookies ≠ "" then storeHeader rh2 "Cookie" cookies else rh2

/-- `newHttpRequest` of `util.go`: build the request-scoped headers; the
instance state is returned so that any mutation of the persistent store
would be visible — the function performs none. -/
def newHttpRequest (g : GatherStructM) (method URL refererURL cookies : String) :
    RequestM × GatherStructM :=
  ({ method := method, url := URL, headers := buildRequestHeaders g refererURL cookies }, g)

/-- `GetUtil`: a GET exchange builds its request directly from
`newHttpRequest`. -/
def getUtil (g : GatherStructM) (URL refererURL cookies : String) :
    RequestM × GatherStructM :=
  newHttpRequest g "GET" URL refererURL cookies

/-- `PostUtil` of `post.go` (body encoding omitted): when the persistent
store has no Content-Type it stores the form default into the persistent
store, then builds the request. -/
def postUtil (g : GatherStructM) (URL refererURL cookies : String) :
    RequestM × GatherStructM :=
  let g1 := if loadHeader g.safeHeaders "Content-Type" = none then
      { safeHeaders :=
          storeHeader g.safeHeaders "Content-Type"
            "application/x-www-form-urlencoded; charset=utf-8" }
    else g
  newHttpRequest g1 "POST" URL refererURL cookies

/-- Whether a character may appear in a multipart boundary other than at
the last position (`mime/multipart.Writer.SetBoundary`, RFC 2046
§5.1.1): ASCII letters and digits plus a fixed set of specials; a space
is also allowed, but not as the last character. -/
def boundaryBaseChar (c : Char) : Bool :=
  (decide ('A' ≤ c) && decide (c ≤ 'Z')) ||
  (decide ('a' ≤ c) && decide (c ≤ 'z')) ||
  (decide ('0' ≤ c) && decide (c ≤ '9')) ||
  c = '\'' || c = '(' || c = ')' || c = '+' || c = '_' || c = ',' || c = '-' ||
  c = '.' || c = '/' || c = ':' || c = '=' || c = '?'

/-- The character scan of `SetBoundary`: every character is a base
boundary character, except that a space is also accepted anywhere but
last. -/
def boundaryCharsOk : List Char → Bool
  | [] => true
  | [c] => boundaryBaseChar c
  | c :: rest => (boundaryBaseChar c || c = ' ') && boundaryCharsOk rest

/-- `mime/multipart.Writer.SetBoundary` succeeds iff the boundary has
length 1..70 and passes the character scan. -/
def setBoundaryOk (boundary : String) : Bool :=
  decide (1 ≤ boundary.toList.length) && decide (boundary.toList.length ≤ 70) &&
  boundaryCharsOk boundary.toList

/-- `PostMultipartFormDataUtil` of `post.go` (body encoding omitted): an
empty boundary uses the generated default of the standard library
(abstracted to a fixed placeholder); a non-empty boundary is given to
`writer.SetBoundary`, whose failure makes the method return an error
*before* the Content-Type store — `none` with the instance unchanged.
Only after the body is assembled does step 6 store the multipart
Content-Type, boundary included, into the persistent store. -/
def postMultipartFormDataUtil (g : GatherStructM)
    (URL refererURL cookies boundary : String) : Option RequestM × GatherStructM :=
  if boundary ≠ "" ∧ setBoundaryOk boundary = false then (none, g)
  else
    let b := if boundary = "" then "6d756c7469706172742d626f756e64" else boundary
    let g1 : GatherStructM :=
      { safeHeaders :=
          storeHeader g.safeHeaders "Content-Type" ("multipart/form-data; boundary=" ++ b) }
    let r := newHttpRequest g1 "POST" URL refererURL cookies
    (some r.1, r.2)

end Hdr

namespace Pool

/-!
Embedding of the instance pool (`Pool`, its constructors and exchange
methods).  Two views are used:

* a functional view of one exchange call (`poolGet` and friends) over the
  possible acquisition outcomes, for the error-path claims;
* a small-step transition system over the pool bookkeeping (`Step`,
  `Reachable`) in which any number of concurrent callers interleave, for
  the leasing invariant.
-/

/-- `PoolConfig`.  The float64 ratio is an exact rational here. -/
structure PoolConfig where
  maxIdleConns : Int
  maxIdleConnsPerHostRatio : ℚ
  timeoutSecond : Int
  retryIntervalMs : Int
  maxPoolSize : Int
  isUseSemaphore : Bool
deriving DecidableEq, Repr

/-- `defaultPoolConfig` (0.2 = 1/5). -/
def defaultPoolConfig : PoolConfig :=
  { maxIdleConns := 0
    maxIdleConnsPerHostRatio := 1 / 5
    timeoutSecond := 30
    retryIntervalMs := 100
    maxPoolSize := 100
    isUseSemaphore := true }

/-- `getValidatedConfig`: reset each out-of-range field to its
default. -/
def getValidatedConfig (cfg : PoolConfig) : PoolConfig :=
  let cfg := if cfg.maxIdleConnsPerHostRatio ≤ 0 ∨ 1 < cfg.maxIdleConnsPerHostRatio then
      { cfg with maxIdleConnsPerHostRatio := defaultPoolConfig.maxIdleConnsPerHostRatio }
    else cfg
  let cfg := if cfg.timeoutSecond ≤ 0 then
      { cfg with timeoutSecond := defaultPoolConfig.timeoutSecond }
    else cfg
  let cfg := if cfg.retryIntervalMs < 10 ∨ 1000 < cfg.retryIntervalMs then
      { cfg with retryIntervalMs := defaultPoolConfig.retryIntervalMs }
    else cfg
  if cfg.maxPoolSize ≤ 0 then
    { cfg with maxPoolSize := defaultPoolConfig.maxPoolSize }
  else cfg

/-- `adjustPoolSize`: clamp the desired size into `[1, maxPoolSize]`. -/
def adjustPoolSize (num maxPoolSize : Int) : Int :=
  if num ≤ 0 then 1
  else if maxPoolSize < num then maxPoolSize
  else num

/-- One pool member as configured by `newGatherUtilWithCustomConfig`: the
two transport connection-pool fields the constructor overwrites. -/
structure GatherInstance where
  transportMaxIdleConns : Int
  transportMaxIdleConnsPerHost : Int
deriving DecidableEq, Repr

/-- `newGatherUtilWithCustomConfig` (cookie jar, headers and client
timeout omitted — only the transport sizing matters here).  Go
`int(float64(maxIdleConns) * ratio)` truncates toward zero; with the
subsequent `≤ 0 → 1` floor the result equals the rational floor in every
case, which is what is used here. -/
def newGatherUtilWithCustomConfig (maxIdleConns : Int) (cfg : PoolConfig) :
    GatherInstance :=
  let perHost := ⌊(maxIdleConns : ℚ) * cfg.maxIdleConnsPerHostRatio⌋
  let perHost := if perHost ≤ 0 then 1 else perHost
  { transportMaxIdleConns := maxIdleConns
    transportMaxIdleConnsPerHost := perHost }

/-- A constructed pool: its instance array, its configuration and the
semaphore capacity. -/
structure PoolModel where
  instances : List GatherInstance
  config : PoolConfig
  semCapacity : Int
deriving DecidableEq, Repr

/-- The common construction core shared by `NewGatherUtilPool` and
`NewGatherUtilPoolWithConfig`: clamp the size, resolve the idle-conns
default, build that many instances and fill the semaphore. -/
def buildPoolCore (num : Int) (cfg : PoolConfig) : PoolModel :=
  let n := adjustPoolSize num cfg.maxPoolSize
  let finalMaxIdleConns := if cfg.maxIdleConns = 0 then n else cfg.maxIdleConns
  { instances := List.replicate n.toNat (newGatherUtilWithCustomConfig finalMaxIdleConns cfg)
    config := cfg
    semCapacity := n }

/-- `initFastConfigByTimeout`: switch the global registry to the fast
profile derived from the pool's request timeout (seconds). -/
def initFastConfigByTimeout (timeoutSecond : Int) (s : Conf.GState) :
    Conf.GState × Conf.SetConfigResult :=
  Conf.setGatherConfigByClientTimeout (timeoutSecond * Conf.second) false true s

/-- `NewGatherUtilPool` (headers / proxy / cookie-log parameters omitted
— they do not affect the modelled fields): first the global fast-profile
switch, then construction with the default configuration.  A panic in the
switch aborts construction (`none`). -/
def newGatherUtilPool (timeOut num : Int) (s : Conf.GState) :
    Option PoolModel × Conf.GState × Conf.SetConfigResult :=
  let res := initFastConfigByTimeout timeOut s
  match res.2 with
  | .ok => (some (buildPoolCore num defaultPoolConfig), res.1, res.2)
  | r => (none, res.1, r)

/-- `NewGatherUtilPoolWithConfig`: same, but with a caller-supplied
configuration run through `getValidatedConfig`. -/
def newGatherUtilPoolWithConfig (timeOut num : Int) (cfg : PoolConfig)
    (s : Conf.GState) : Option PoolModel × Conf.GState × Conf.SetConfigResult :=
  let res := initFastConfigByTimeout timeOut s
  match res.2 with
  | .ok => (some (buildPoolCore num (getValidatedConfig cfg)), res.1, res.2)
  | r => (none, res.1, r)

/-- The error values an exchange can surface.  `errNoFreeClinetFind`
keeps the source's spelling; network and HTTP-status failures come from
the delegated instance call and are structurally distinct. -/
inductive GoError where
  | errNoFreeClinetFind
  | network (msg : String)
  | httpStatus (code : Int)
deriving DecidableEq, Repr

/-- The message of each error; the sentinel's text is the literal from
the source. -/
def GoError.message : GoError → String
  | .errNoFreeClinetFind => "time out,no free client find"
  | .network msg => msg
  | .httpStatus code => "HTTP status " ++ toString code

/-- The `(html, redirectURL, err)` result triple of an exchange. -/
structure ExchangeResult where
  html : String
  redirectURL : String
  err : Option GoError
deriving DecidableEq, Repr

/-- How the acquisition phase of one exchange call can end: the semaphore
select times out, the free-index scan (`getPoolIndex`) times out, or an
instance index is leased. -/
inductive AcquireOutcome (n : ℕ) where
  | permitTimeout
  | scanTimeout
  | acquired (i : Fin n)

/-- `Pool.Get`: both acquisition-failure paths return
`("", "", errNoFreeClinetFind)`; success delegates to the leased
instance's `GetUtil` with an empty cookie string. -/
def poolGet {n : ℕ} (outcome : AcquireOutcome n)
    (instGetUtil : Fin n → String → String → String → ExchangeResult)
    (URL refererURL : String) : ExchangeResult :=
  match outcome with
  | .permitTimeout => { html := "", redirectURL := "", err := some .errNoFreeClinetFind }
  | .scanTimeout => { html := "", redirectURL := "", err := some .errNoFreeClinetFind }
  | .acquired i => instGetUtil i URL refererURL ""

/-- `Pool.GetUtil`: same acquisition structure; success delegates with
the caller's cookie string. -/
def poolGetUtil {n : ℕ} (outcome : AcquireOutcome n)
    (instGetUtil : Fin n → String → String → String → ExchangeResult)
    (URL refererURL cookies : String) : ExchangeResult :=
  match outcome with
  | .permitTimeout => { html := "", redirectURL := "", err := some .errNoFreeClinetFind }
  | .scanTimeout => { html := "", redirectURL := "", err := some .errNoFreeClinetFind }
  | .acquired i => instGetUtil i URL refererURL cookies

/-- `Pool.Post`: same acquisition structure; success delegates to the
instance's `Post`. -/
def poolPost {n : ℕ} (outcome : AcquireOutcome n)
    (instPost : Fin n → String → String → List (String × String) → ExchangeResult)
    (URL refererURL : String) (postMap : List (String × String)) : ExchangeResult :=
  match outcome with
  | .permitTimeout => { html := "", redirectURL := "", err := some .errNoFreeClinetFind }
  | .scanTimeout => { html := "", redirectURL := "", err := some .errNoFreeClinetFind }
  | .acquired i => instPost i URL refererURL postMap

/-- `Pool.PostUtil`: same acquisition structure; success delegates to the
instance's `PostUtil`. -/
def poolPostUtil {n : ℕ} (outcome : AcquireOutcome n)
    (instPostUtil : Fin n → String → String → String → List (String × String) → ExchangeResult)
    (URL refererURL cookies : String) (postMap : List (String × String)) : ExchangeResult :=
  match outcome with
  | .permitTimeout => { html := "", redirectURL := "", err := some .errNoFreeClinetFind }
  | .scanTimeout => { html := "", redirectURL := "", err := some .errNoFreeClinetFind }
  | .acquired i => instPostUtil i URL refererURL cookies postMap

/-- Where one caller currently is inside a pool exchange: outside any
call; holding a permit and scanning `unUsed`; having observed a free
entry `(i, true)` during `unUsed.Range` but not yet executed the
`unUsed.Delete` (the `sync.Map` read and delete are two separate
operations with no lock around them); or holding the lease on instance
`i`. -/
inductive Phase (n : ℕ) where
  | idle
  | scanning
  | observed (i : Fin n)
  | leased (i : Fin n)
deriving DecidableEq

/-- The pool bookkeeping shared by all callers: the semaphore occupancy
(`sem` tokens available in the channel), the set of free indices in
`unUsed`, and the multiset of caller phases. -/
structure PoolSt (n : ℕ) where
  sem : ℕ
  free : Finset (Fin n)
  callers : Multiset (Phase n)

/-- The indices currently leased by some caller. -/
def leasedIdx {n : ℕ} (ms : Multiset (Phase n)) : Multiset (Fin n) :=
  ms.filterMap (fun p => match p with | .leased i => some i | _ => none)

/-- One interleaved step of the pool exchange methods (`Get`, `GetUtil`,
`Post`, `PostUtil` — their acquire/release structure is identical).
`useSem` is `config.IsUseSemaphore`:

* `acquirePermit`: the semaphore select succeeds (`<-p.sem`);
* `enterScanNoSem`: with the semaphore disabled, the method proceeds to
  the scan directly;
* `scanObserve`: inside `unUsed.Range` the caller reads an entry
  `(i, true)` — the index is free at the moment of the read, and nothing
  is removed yet;
* `scanLease`: the caller then runs `unUsed.Delete(idx)` and returns
  `idx` from `getPoolIndex`.  The delete is unconditional and a delete
  of an already-removed key is a no-op (`Finset.erase` of a non-member),
  so no freshness of `i` is required here: between the read and the
  delete another scanner may have observed and taken the same entry —
  the source holds no lock across the two operations;
* `scanTimeout`: `getPoolIndex` returns -1; the method returns the
  sentinel error, its deferred send returns the permit;
* `finish`: the delegated exchange returns (success or network error);
  the deferred `unUsed.Store` frees the index and the deferred send
  returns the permit.

The permit-timeout path of the select changes no state and is the
identity, so it needs no step. -/
inductive Step (useSem : Bool) {n : ℕ} : PoolSt n → PoolSt n → Prop where
  | acquirePermit (m : ℕ) (free : Finset (Fin n)) (rest : Multiset (Phase n)) :
      useSem = true →
      Step useSem ⟨m + 1, free, .idle ::ₘ rest⟩ ⟨m, free, .scanning ::ₘ rest⟩
  | enterScanNoSem (m : ℕ) (free : Finset (Fin n)) (rest : Multiset (Phase n)) :
      useSem = false →
      Step useSem ⟨m, free, .idle ::ₘ rest⟩ ⟨m, free, .scanning ::ₘ rest⟩
  | scanObserve (m : ℕ) (free : Finset (Fin n)) (rest : Multiset (Phase n)) (i : Fin n) :
      i ∈ free →
      Step useSem ⟨m, free, .scanning ::ₘ rest⟩ ⟨m, free, .observed i ::ₘ rest⟩
  | scanLease (m : ℕ) (free : Finset (Fin n)) (rest : Multiset (Phase n)) (i : Fin n) :
      Step useSem ⟨m, free, .observed i ::ₘ rest⟩ ⟨m, free.erase i, .leased i ::ₘ rest⟩
  | scanTimeout (m : ℕ) (free : Finset (Fin n)) (rest : Multiset (Phase n)) :
      Step useSem ⟨m, free, .scanning ::ₘ rest⟩
        ⟨if useSem then m + 1 else m, free, .idle ::ₘ rest⟩
  | finish (m : ℕ) (free : Finset (Fin n)) (rest : Multiset (Phase n)) (i : Fin n) :
      Step useSem ⟨m, free, .leased i ::ₘ rest⟩
        ⟨if useSem then m + 1 else m, insert i free, .idle ::ₘ rest⟩

/-- The pool state right after construction for pool size `n` and
`ncallers` client goroutines: a full semaphore, every index free, every
caller outside. -/
def initSt (n ncallers : ℕ) : PoolSt n :=
  ⟨n, Finset.univ, Multiset.replicate ncallers .idle⟩

/-- States reachable from construction by any interleaving of caller
steps. -/
inductive Reachable (useSem : Bool) (n ncallers : ℕ) : PoolSt n → Prop where
  | init : Reachable useSem n ncallers (initSt n ncallers)
  | step {s s' : PoolSt n} : Reachable useSem n ncallers s → Step useSem s s' →
      Reachable useSem n ncallers s'

/-- The pool bookkeeping invariant of the race-faithful model: every
index missing from the free set is leased by some caller (so releases
restore everything), and with the semaphore enabled the available tokens
plus the callers inside an exchange equal `n`.  Note what is *not*
invariant: leased indices need not be distinct, because the unlocked
Range-then-Delete scan lets two callers take the same entry. -/
def Inv (useSem : Bool) {n : ℕ} (s : PoolSt n) : Prop :=
  (∀ j : Fin n, j ∉ s.free → j ∈ leasedIdx s.callers) ∧
  (useSem = true → s.sem + s.callers.countP (fun p => ¬ p = Phase.idle) = n)

end Pool

/-!
Example values used by the witness theorems below.
-/

/-- A well-formed profile value, used to populate concrete registry
states in witnesses (it is the slow profile derived from a 600 s total
timeout). -/
def Conf.exampleConfig : Conf.GatherConfig :=
  { maxIdleConns := 100
    maxIdleConnsPerHost := 100
    idleConnTimeout := 90 * Conf.second
    tlsInsecureSkipVerify := true
    dialTimeout := 120 * Conf.second
    tlsHandshakeTimeout := 120 * Conf.second
    expectContinueTimeout := 60 * Conf.second
    responseHeaderTimeout := 0
    disableCompression := false
    forceAttemptHTTP2 := false
    tcpLinger := 1
    keepAlive := 60 * Conf.second }

/-- A configuration violating two rules at once (`MaxIdleConns ≤ 0` and a
negative dial timeout). -/
def Conf.exampleBadConfig : Conf.GatherConfig :=
  { Conf.exampleConfig with maxIdleConns := 0, dialTimeout := -1 * Conf.second }

/-- A parser with the failure behavior of `net/url.Parse` on a host
containing a space (for example `http://a b`): such URLs are rejected,
everything else parses. -/
def NewGo.spaceRejectingParse : String → Except String URLM :=
  fun s =>
    if s.toList.contains ' ' then .error "invalid character in host name"
    else .ok { raw := s, userinfo := none }

/-!
Theorems.  Each claim of the specification gets exactly one theorem (plus
a witness or counterexample where required); shared helper lemmas come
first.
-/

/-- Membership in a one-element conditional list. -/
theorem mem_ite_singleton {α : Type} (a b : α) (c : Prop) [Decidable c] :
    (a ∈ if c then [b] else []) ↔ c ∧ a = b := by
  split <;> simp_all

/-- Each validation rule of `SetGatherConfig` contributes its message to
the batch exactly when its field is violated. -/
theorem Conf.mem_validationErrors (cfg : Conf.GatherConfig) (f : Conf.FieldErr) :
    f ∈ Conf.validationErrors cfg ↔ Conf.violates cfg f := by
  cases f <;>
    simp [Conf.validationErrors, Conf.violates, List.mem_append, mem_ite_singleton]

/-- Claim C2: for every total timeout T > 0, the fast (snappy) profile of
the derivation yields dial timeout max(20% T, 1 s), TLS-handshake timeout
max(20% T, 1 s), expect-continue timeout max(10% T, 0.5 s) and
response-header timeout max(40% T, 2 s); the slow (patient) profile
forces the response-header timeout to 0 (unbounded) regardless of T. -/
theorem claim_C2_timeout_derivation (T : Conf.Duration) (tls tls' : Bool)
    (h : 0 < T) :
    (Conf.deriveGatherConfig T false tls).isSome = true ∧
    (∀ cfg, Conf.deriveGatherConfig T false tls = some cfg →
      cfg.dialTimeout = max (Conf.scaleDur T 1 5) (1 * Conf.second) ∧
      cfg.tlsHandshakeTimeout = max (Conf.scaleDur T 1 5) (1 * Conf.second) ∧
      cfg.expectContinueTimeout = max (Conf.scaleDur T 1 10) (500 * Conf.millisecond) ∧
      cfg.responseHeaderTimeout = max (Conf.scaleDur T 2 5) (2 * Conf.second)) ∧
    (∀ cfg, Conf.deriveGatherConfig T true tls' = some cfg →
      cfg.responseHeaderTimeout = 0) := by
  have hT : ¬ (T ≤ 0) := not_le.mpr h
  refine ⟨?_, ?_, ?_⟩
  · simp [Conf.deriveGatherConfig, hT]
  · intro cfg hcfg
    simp only [Conf.deriveGatherConfig, if_neg hT, Option.some.injEq] at hcfg
    subst hcfg
    exact ⟨rfl, rfl, rfl, rfl⟩
  · intro cfg hcfg
    simp only [Conf.deriveGatherConfig, if_neg hT, Option.some.injEq] at hcfg
    subst hcfg
    rfl

/-- Witness for C2 at T = 30 s. -/
theorem claim_C2_timeout_derivation_witness :
    (0 : Int) < 30 * Conf.second ∧
    ((Conf.deriveGatherConfig (30 * Conf.second) false true).isSome = true ∧
      (∀ cfg, Conf.deriveGatherConfig (30 * Conf.second) false true = some cfg →
        cfg.dialTimeout = max (Conf.scaleDur (30 * Conf.second) 1 5) (1 * Conf.second) ∧
        cfg.tlsHandshakeTimeout = max (Conf.scaleDur (30 * Conf.second) 1 5) (1 * Conf.second) ∧
        cfg.expectContinueTimeout =
          max (Conf.scaleDur (30 * Conf.second) 1 10) (500 * Conf.millisecond) ∧
        cfg.responseHeaderTimeout =
          max (Conf.scaleDur (30 * Conf.second) 2 5) (2 * Conf.second)) ∧
      (∀ cfg, Conf.deriveGatherConfig (30 * Conf.second) true true = some cfg →
        cfg.responseHeaderTimeout = 0)) :=
  ⟨by decide, claim_C2_timeout_derivation (30 * Conf.second) true true (by decide)⟩

/-- Claim C5: an invalid configuration (or a nil one) leaves the global
registry state — active profile and cached no-proxy transport — entirely
unchanged, and the rejection carries the batch of all violated fields,
each field being reported exactly when it is violated. -/
theorem claim_C5_invalid_config_rejected (s : Conf.GState)
    (cfg : Conf.GatherConfig) (h : Conf.validationErrors cfg ≠ []) :
    (Conf.setGatherConfig (some cfg) s).1 = s ∧
    (Conf.setGatherConfig (some cfg) s).2 =
      Conf.SetConfigResult.invalidPanic (Conf.validationErrors cfg) ∧
    (∀ f, f ∈ Conf.validationErrors cfg ↔ Conf.violates cfg f) ∧
    (Conf.setGatherConfig none s).1 = s := by
  refine ⟨?_, ?_, fun f => Conf.mem_validationErrors cfg f, rfl⟩ <;>
    simp [Conf.setGatherConfig, h]

/-- Witness for C5: a configuration violating two rules at once is
rejected with both fields reported and the registry untouched. -/
theorem claim_C5_invalid_config_rejected_witness :
    Conf.validationErrors Conf.exampleBadConfig ≠ [] ∧
    (Conf.setGatherConfig (some Conf.exampleBadConfig)
        { globalConfig := Conf.exampleConfig, transportNoProxy := none }).1 =
      { globalConfig := Conf.exampleConfig, transportNoProxy := none } ∧
    Conf.FieldErr.maxIdleConnsErr ∈ Conf.validationErrors Conf.exampleBadConfig ∧
    Conf.FieldErr.dialTimeoutErr ∈ Conf.validationErrors Conf.exampleBadConfig :=
  ⟨by decide,
    (claim_C5_invalid_config_rejected _ Conf.exampleBadConfig (by decide)).1,
    by decide, by decide⟩

/-- Claim C9: `Ungzip` decompresses only gzip-signed input — empty input
returns the empty result with no error, unsigned input passes through
unchanged with no error, and a decoder failure on signed input surfaces
as an error, never as a silent success (while a successful decode is
returned as decoded). -/
theorem claim_C9_ungzip_passthrough (gzipDecode : List Nat → Except String (List Nat))
    (data : List Nat) :
    (data = [] → Gz.Ungzip gzipDecode data = .ok []) ∧
    (¬ Gz.hasGzipMagic data → Gz.Ungzip gzipDecode data = .ok data) ∧
    (Gz.hasGzipMagic data → ∀ e, gzipDecode data = .error e →
      Gz.Ungzip gzipDecode data = .error e) ∧
    (Gz.hasGzipMagic data → ∀ out, gzipDecode data = .ok out →
      Gz.Ungzip gzipDecode data = .ok out) := by
  refine ⟨?_, ?_, ?_, ?_⟩
  · intro h; subst h; rfl
  · intro h
    unfold Gz.Ungzip
    by_cases h0 : data.length = 0
    · rw [if_pos h0]
      have he : data = [] := List.length_eq_zero.mp h0
      rw [he]
    · rw [if_neg h0, if_pos ?_]
      simp only [Gz.hasGzipMagic, not_and_or, not_le] at h
      rcases h with h | h | h
      · exact Or.inl h
      · exact Or.inr (Or.inl h)
      · exact Or.inr (Or.inr h)
  · intro hm e he
    obtain ⟨h2, ha, hb⟩ := hm
    unfold Gz.Ungzip
    rw [if_neg (by omega), if_neg (by simp [ha, hb]; omega), he]
  · intro hm out ho
    obtain ⟨h2, ha, hb⟩ := hm
    unfold Gz.Ungzip
    rw [if_neg (by omega), if_neg (by simp [ha, hb]; omega), ho]

/-- Witness for C9: a failing decoder on signed input yields an error,
and unsigned input passes through untouched under the same decoder. -/
theorem claim_C9_ungzip_passthrough_witness :
    Gz.hasGzipMagic [31, 139, 8] ∧
    Gz.Ungzip (fun _ => .error "gzip: corrupt input") [31, 139, 8] =
      .error "gzip: corrupt input" ∧
    ¬ Gz.hasGzipMagic [104, 116, 109, 108] ∧
    Gz.Ungzip (fun _ => .error "gzip: corrupt input") [104, 116, 109, 108] =
      .ok [104, 116, 109, 108] ∧
    Gz.Ungzip (fun _ => .error "gzip: corrupt input") [] = .ok [] :=
  ⟨by decide,
    (claim_C9_ungzip_passthrough _ [31, 139, 8]).2.2.1 (by decide) _ rfl,
    by decide,
    (claim_C9_ungzip_passthrough _ [104, 116, 109, 108]).2.1 (by decide),
    (claim_C9_ungzip_passthrough _ []).1 rfl⟩

/-- Claim C6: for a non-empty proxy key, a second factory call with the
same key returns the very transport cached by the first call and leaves
the cache untouched (at most one construction per distinct key); the
cache moreover maps the key to that transport. -/
theorem claim_C6_transport_built_once (k : String) (s : NewGo.CacheSt)
    (hk : k ≠ "") :
    (NewGo.getHttpTransport k (NewGo.getHttpTransport k s).2).1 =
      (NewGo.getHttpTransport k s).1 ∧
    (NewGo.getHttpTransport k (NewGo.getHttpTransport k s).2).2 =
      (NewGo.getHttpTransport k s).2 ∧
    ((NewGo.getHttpTransport k s).2).proxyMap.lookup k =
      some (NewGo.getHttpTransport k s).1 := by
  unfold NewGo.getHttpTransport
  rw [if_neg hk]
  cases hl : s.proxyMap.lookup k with
  | some t => simp [if_neg hk, hl]
  | none => simp [if_neg hk, hl]

/-- Witness for C6 on the empty initial cache with a concrete key. -/
theorem claim_C6_transport_built_once_witness :
    ("http://127.0.0.1:8080" : String) ≠ "" ∧
    (NewGo.getHttpTransport "http://127.0.0.1:8080"
        (NewGo.getHttpTransport "http://127.0.0.1:8080" NewGo.initCache).2).1 =
      (NewGo.getHttpTransport "http://127.0.0.1:8080" NewGo.initCache).1 ∧
    (NewGo.getHttpTransport "http://127.0.0.1:8080"
        (NewGo.getHttpTransport "http://127.0.0.1:8080" NewGo.initCache).2).2 =
      (NewGo.getHttpTransport "http://127.0.0.1:8080" NewGo.initCache).2 :=
  ⟨by decide,
    (claim_C6_transport_built_once "http://127.0.0.1:8080" NewGo.initCache
      (by decide)).1,
    (claim_C6_transport_built_once "http://127.0.0.1:8080" NewGo.initCache
      (by decide)).2.1⟩

/-- Claim C3: whenever acquisition fails — the semaphore select times out
or the free-index scan times out — each of the four pool exchange
methods returns empty html, empty redirect URL and the single sentinel
error, whose message is the source literal and which is structurally
distinct from network and HTTP-status errors. -/
theorem claim_C3_acquire_timeout_sentinel {n : ℕ} (outcome : Pool.AcquireOutcome n)
    (dGet : Fin n → String → String → String → Pool.ExchangeResult)
    (dPost : Fin n → String → String → List (String × String) → Pool.ExchangeResult)
    (dPostUtil : Fin n → String → String → String → List (String × String) →
      Pool.ExchangeResult)
    (URL refererURL cookies : String) (postMap : List (String × String))
    (h : outcome = .permitTimeout ∨ outcome = .scanTimeout) :
    Pool.poolGet outcome dGet URL refererURL =
      { html := "", redirectURL := "", err := some .errNoFreeClinetFind } ∧
    Pool.poolGetUtil outcome dGet URL refererURL cookies =
      { html := "", redirectURL := "", err := some .errNoFreeClinetFind } ∧
    Pool.poolPost outcome dPost URL refererURL postMap =
      { html := "", redirectURL := "", err := some .errNoFreeClinetFind } ∧
    Pool.poolPostUtil outcome dPostUtil URL refererURL cookies postMap =
      { html := "", redirectURL := "", err := some .errNoFreeClinetFind } ∧
    Pool.GoError.message .errNoFreeClinetFind = "time out,no free client find" ∧
    (∀ msg, Pool.GoError.errNoFreeClinetFind ≠ .network msg) ∧
    (∀ code, Pool.GoError.errNoFreeClinetFind ≠ .httpStatus code) := by
  rcases h with h | h <;> subst h <;>
    exact ⟨rfl, rfl, rfl, rfl, rfl, fun _ => by simp, fun _ => by simp⟩

/-- Witness for C3 at a pool of size 1 whose delegates would answer
successfully if reached. -/
theorem claim_C3_acquire_timeout_sentinel_witness :
    Pool.poolGet (n := 1) Pool.AcquireOutcome.scanTimeout
        (fun _ _ _ _ => { html := "page", redirectURL := "u", err := none })
        "http://x/" "" =
      { html := "", redirectURL := "", err := some .errNoFreeClinetFind } ∧
    Pool.poolPostUtil (n := 1) Pool.AcquireOutcome.scanTimeout
        (fun _ _ _ _ _ => { html := "page", redirectURL := "u", err := none })
        "http://x/" "" "a=b" [] =
      { html := "", redirectURL := "", err := some .errNoFreeClinetFind } :=
  ⟨(claim_C3_acquire_timeout_sentinel Pool.AcquireOutcome.scanTimeout
      (fun _ _ _ _ => { html := "page", redirectURL := "u", err := none })
      (fun _ _ _ _ => { html := "page", redirectURL := "u", err := none })
      (fun _ _ _ _ _ => { html := "page", redirectURL := "u", err := none })
      "http://x/" "" "a=b" [] (Or.inr rfl)).1,
    (claim_C3_acquire_timeout_sentinel Pool.AcquireOutcome.scanTimeout
      (fun _ _ _ _ => { html := "page", redirectURL := "u", err := none })
      (fun _ _ _ _ => { html := "page", redirectURL := "u", err := none })
      (fun _ _ _ _ _ => { html := "page", redirectURL := "u", err := none })
      "http://x/" "" "a=b" [] (Or.inr rfl)).2.2.2.1⟩

/-- Claim C4: pool construction clamps the desired size to
min(max(num, 1), MaxPoolSize) and builds exactly that many instances;
with `MaxIdleConns = 0` every instance's transport gets
`MaxIdleConns` equal to the clamped pool size and
`MaxIdleConnsPerHost` equal to pool size × per-host ratio, floored at 1.
Validation guarantees `MaxPoolSize ≥ 1` for both constructors (the
default configuration has 100). -/
theorem claim_C4_pool_construction_sizing (num : Int) (cfg : Pool.PoolConfig)
    (h : 1 ≤ cfg.maxPoolSize) :
    Pool.adjustPoolSize num cfg.maxPoolSize = min (max num 1) cfg.maxPoolSize ∧
    (Pool.buildPoolCore num cfg).instances.length =
      (min (max num 1) cfg.maxPoolSize).toNat ∧
    (cfg.maxIdleConns = 0 →
      ∀ inst ∈ (Pool.buildPoolCore num cfg).instances,
        inst.transportMaxIdleConns = min (max num 1) cfg.maxPoolSize ∧
        inst.transportMaxIdleConnsPerHost =
          max 1 ⌊((min (max num 1) cfg.maxPoolSize : Int) : ℚ) *
            cfg.maxIdleConnsPerHostRatio⌋) ∧
    (∀ c : Pool.PoolConfig, 1 ≤ (Pool.getValidatedConfig c).maxPoolSize) ∧
    Pool.defaultPoolConfig.maxPoolSize = 100 := by
  have hadj : Pool.adjustPoolSize num cfg.maxPoolSize = min (max num 1) cfg.maxPoolSize := by
    unfold Pool.adjustPoolSize
    split
    · omega
    · split <;> omega
  refine ⟨hadj, ?_, ?_, ?_, rfl⟩
  · simp only [Pool.buildPoolCore, List.length_replicate, hadj]
  · intro hidle inst hinst
    simp only [Pool.buildPoolCore, hidle, if_pos, hadj] at hinst
    have := List.eq_of_mem_replicate hinst
    subst this
    unfold Pool.newGatherUtilWithCustomConfig
    refine ⟨rfl, ?_⟩
    simp only
    split <;> omega
  · intro c
    simp only [Pool.getValidatedConfig, Pool.defaultPoolConfig,
      apply_ite (Pool.PoolConfig.maxPoolSize), ite_self]
    split <;> omega

/-- Witness for C4: desired size 250 against the default configuration is
clamped to 100, and each instance transport gets idle budget 100 with
per-host budget 20. -/
theorem claim_C4_pool_construction_sizing_witness :
    (1 : Int) ≤ Pool.defaultPoolConfig.maxPoolSize ∧
    Pool.adjustPoolSize 250 Pool.defaultPoolConfig.maxPoolSize =
      min (max 250 1) Pool.defaultPoolConfig.maxPoolSize ∧
    (Pool.buildPoolCore 250 Pool.defaultPoolConfig).instances.length =
      (min (max (250 : Int) 1) Pool.defaultPoolConfig.maxPoolSize).toNat :=
  ⟨by decide,
    (claim_C4_pool_construction_sizing 250 Pool.defaultPoolConfig (by decide)).1,
    (claim_C4_pool_construction_sizing 250 Pool.defaultPoolConfig (by decide)).2.1⟩

/-- Counterexample to claim C7 as stated: the POST exchange `PostUtil`,
run on an instance whose persistent store has no Content-Type, mutates
the persistent header store (it stores the form default into
`safeHeaders`), so header building for an exchange is not mutation-free
for every exchange operation. -/
theorem claim_C7_counterexample :
    (Hdr.postUtil { safeHeaders := [("User-Agent", "chrome")] }
        "http://e.com/a" "" "").2.safeHeaders ≠ [("User-Agent", "chrome")] := by
  decide

/-- Claim C7 as amended: the referer/cookie overlay (`newHttpRequest`)
never mutates the persistent header store, and GET exchanges leave it
unchanged; POST exchanges leave it unchanged except that `PostUtil`
writes the form default Content-Type into the persistent store when that
key is absent, and `PostMultipartFormDataUtil` writes the multipart
Content-Type into the persistent store whenever its boundary is accepted
(empty boundary means the generated default; for a non-empty boundary
that `SetBoundary` rejects, the method returns an error before the store
and the persistent store is untouched). -/
theorem claim_C7_header_overlay_amended (g : Hdr.GatherStructM)
    (method URL refererURL cookies boundary : String) :
    (Hdr.newHttpRequest g method URL refererURL cookies).2 = g ∧
    (Hdr.getUtil g URL refererURL cookies).2 = g ∧
    (Hdr.postUtil g URL refererURL cookies).2.safeHeaders =
      (if Hdr.loadHeader g.safeHeaders "Content-Type" = none then
        Hdr.storeHeader g.safeHeaders "Content-Type"
          "application/x-www-form-urlencoded; charset=utf-8"
      else g.safeHeaders) ∧
    (boundary ≠ "" → Hdr.setBoundaryOk boundary = false →
      Hdr.postMultipartFormDataUtil g URL refererURL cookies boundary = (none, g)) ∧
    (boundary = "" ∨ Hdr.setBoundaryOk boundary = true →
      (Hdr.postMultipartFormDataUtil g URL refererURL cookies boundary).2.safeHeaders =
        Hdr.storeHeader g.safeHeaders "Content-Type"
          ("multipart/form-data; boundary=" ++
            (if boundary = "" then "6d756c7469706172742d626f756e64" else boundary))) := by
  refine ⟨rfl, rfl, ?_, ?_, ?_⟩
  · simp only [Hdr.postUtil, Hdr.newHttpRequest]
    split <;> rfl
  · intro hb hbad
    simp [Hdr.postMultipartFormDataUtil, hb, hbad]
  · intro hok
    have hcond : ¬ (boundary ≠ "" ∧ Hdr.setBoundaryOk boundary = false) := by
      rcases hok with hok | hok <;> simp [hok]
    simp only [Hdr.postMultipartFormDataUtil, if_neg hcond, Hdr.newHttpRequest]

/-- Witness for the amended C7: the rejected boundary `@@@` leaves the
persistent store untouched, while the empty boundary stores the
multipart Content-Type with the default placeholder boundary. -/
theorem claim_C7_header_overlay_amended_witness :
    Hdr.setBoundaryOk "@@@" = false ∧
    Hdr.postMultipartFormDataUtil { safeHeaders := [("User-Agent", "chrome")] }
        "http://e.com/a" "" "" "@@@" =
      (none, { safeHeaders := [("User-Agent", "chrome")] }) ∧
    (Hdr.postMultipartFormDataUtil { safeHeaders := [("User-Agent", "chrome")] }
        "http://e.com/a" "" "" "").2.safeHeaders =
      Hdr.storeHeader [("User-Agent", "chrome")] "Content-Type"
        ("multipart/form-data; boundary=" ++
          (if ("" : String) = "" then "6d756c7469706172742d626f756e64" else "")) :=
  ⟨by decide,
    (claim_C7_header_overlay_amended { safeHeaders := [("User-Agent", "chrome")] }
      "POST" "http://e.com/a" "" "" "@@@").2.2.2.1 (by decide) (by decide),
    (claim_C7_header_overlay_amended { safeHeaders := [("User-Agent", "chrome")] }
      "POST" "http://e.com/a" "" "" "").2.2.2.2 (Or.inl rfl)⟩

/-- Counterexample to claim C8 as stated: with a parser rejecting a host
containing a space (the behavior of `net/url.Parse`), the
authenticated-proxy constructor returns a client with no transport and
no cookie jar, and — its return type having no error component — surfaces
no error; so it is false that for every input the caller gets a usable
transport or a reported construction failure. -/
theorem claim_C8_counterexample :
    (NewGo.newGatherUtilHasPass NewGo.spaceRejectingParse "http://a b"
        "admin" "123456" 60).client.transport = none ∧
    (NewGo.newGatherUtilHasPass NewGo.spaceRejectingParse "http://a b"
        "admin" "123456" 60).client.hasJar = false ∧
    ¬ (∀ (urlParse : String → Except String URLM) (proxyURL user pass : String)
        (timeOut : Int),
        ((NewGo.newGatherUtilHasPass urlParse proxyURL user pass
          timeOut).client.transport).isSome = true) := by
  refine ⟨rfl, rfl, fun hall => ?_⟩
  have h2 : ((NewGo.newGatherUtilHasPass NewGo.spaceRejectingParse "http://a b"
      "admin" "123456" 60).client.transport).isSome = false := rfl
  exact Bool.false_ne_true
    (h2.symm.trans (hall NewGo.spaceRejectingParse "http://a b" "admin" "123456" 60))

/-- Claim C8 as amended: on the authenticated-proxy path a proxy-URL
parse failure is wrapped into a descriptive error by
`parseProxyURLWithAuth`, `getHttpTransportHasPass` then logs it and
returns nil, and `NewGatherUtilHasPass` falls back to a basic client
with no transport and no cookie jar; no error value reaches the caller,
who can detect the failure only by inspecting the returned client.  On a
successful parse the constructor wires the authenticated transport and
the jar. -/
theorem claim_C8_auth_proxy_amended (urlParse : String → Except String URLM)
    (proxyURL user pass : String) (timeOut : Int) :
    (∀ e, NewGo.parseProxyURLWithAuth urlParse proxyURL user pass = .error e →
      NewGo.getHttpTransportHasPass urlParse proxyURL user pass = none ∧
      (NewGo.newGatherUtilHasPass urlParse proxyURL user pass
        timeOut).client.transport = none ∧
      (NewGo.newGatherUtilHasPass urlParse proxyURL user pass
        timeOut).client.hasJar = false) ∧
    (∀ u, NewGo.parseProxyURLWithAuth urlParse proxyURL user pass = .ok u →
      (NewGo.newGatherUtilHasPass urlParse proxyURL user pass
        timeOut).client.transport = some (NewGo.newBaseTransportWithAuth u) ∧
      (NewGo.newGatherUtilHasPass urlParse proxyURL user pass
        timeOut).client.hasJar = true) ∧
    (∀ e', urlParse (if NewGo.containsStr proxyURL "http" then proxyURL
          else "http://" ++ proxyURL) = .error e' →
      ∃ e, NewGo.parseProxyURLWithAuth urlParse proxyURL user pass = .error e) := by
  refine ⟨?_, ?_, ?_⟩
  · intro e he
    simp [NewGo.getHttpTransportHasPass, NewGo.newGatherUtilHasPass, he]
  · intro u hu
    simp [NewGo.newGatherUtilHasPass, NewGo.getHttpTransportHasPass, hu]
  · intro e' he'
    simp [NewGo.parseProxyURLWithAuth, he']

/-- Witness for the amended C8: the rejected-host parse makes the
constructor fall back to the basic client, and a successful parse on a
clean proxy URL wires the authenticated transport. -/
theorem claim_C8_auth_proxy_amended_witness :
    NewGo.parseProxyURLWithAuth NewGo.spaceRejectingParse "http://a b"
      "admin" "123456" =
      .error "parse proxy url [http://a b] failed: invalid character in host name" ∧
    (NewGo.newGatherUtilHasPass NewGo.spaceRejectingParse "http://a b"
      "admin" "123456" 60).client.transport = none ∧
    (NewGo.newGatherUtilHasPass NewGo.spaceRejectingParse "104.207.139.207:8080"
      "admin" "123456" 60).client.transport =
      some (NewGo.newBaseTransportWithAuth
        { raw := "http://104.207.139.207:8080", userinfo := some ("admin", "123456") }) :=
  ⟨rfl,
    ((claim_C8_auth_proxy_amended NewGo.spaceRejectingParse "http://a b"
      "admin" "123456" 60).1 _ rfl).2.1,
    ((claim_C8_auth_proxy_amended NewGo.spaceRejectingParse "104.207.139.207:8080"
      "admin" "123456" 60).2.1 _ rfl).1⟩

/-- Every configuration produced by the derivation passes the validation
of `SetGatherConfig` (all floors are positive, both linger values are
non-negative, and the forced slow-profile response-header value 0 is
allowed). -/
theorem Conf.validationErrors_derive (T : Conf.Duration) (slow tls : Bool)
    (cfg : Conf.GatherConfig) (h : Conf.deriveGatherConfig T slow tls = some cfg) :
    Conf.validationErrors cfg = [] := by
  by_cases hT : T ≤ 0
  · simp [Conf.deriveGatherConfig, hT] at h
  · simp only [Conf.deriveGatherConfig, if_neg hT, Option.some.injEq] at h
    subst h
    have hsec : (0 : Int) < Conf.second := by decide
    have hms : (0 : Int) < Conf.millisecond := by decide
    have h1 : ¬ ((max (Conf.scaleDur T 1 5) (1 * Conf.second)) ≤ 0) := by
      simp only [not_le]
      have h0 : (0 : Int) < 1 * Conf.second := by omega
      exact lt_of_lt_of_le h0 (le_max_right _ _)
    simp only [Conf.validationErrors]
    cases slow <;> simp_all [Conf.second, Conf.millisecond]

/-- Claim C10: constructing a pool — through `NewGatherUtilPool` or
`NewGatherUtilPoolWithConfig`, which run the same
`initFastConfigByTimeout` switch — overwrites the global registry with
the fast-connection profile derived from the pool's timeOut parameter
and resets the cached no-proxy transport, so a gather instance created
afterwards is wired to a transport built from the pool's fast-profile
settings rather than the previously active profile. -/
theorem claim_C10_pool_overwrites_global_config (s : Conf.GState)
    (timeOut num : Int) (pcfg : Pool.PoolConfig) (h : 1 ≤ timeOut) :
    ∃ cfg, Conf.deriveGatherConfig (timeOut * Conf.second) false true = some cfg ∧
      (Pool.newGatherUtilPool timeOut num s).2.1 =
        { globalConfig := cfg, transportNoProxy := none } ∧
      (Pool.newGatherUtilPool timeOut num s).2.2 = Conf.SetConfigResult.ok ∧
      (Pool.newGatherUtilPoolWithConfig timeOut num pcfg s).2.1 =
        { globalConfig := cfg, transportNoProxy := none } ∧
      (Pool.newGatherUtilPoolWithConfig timeOut num pcfg s).2.2 =
        Conf.SetConfigResult.ok ∧
      cfg.disableCompression = true ∧
      cfg.forceAttemptHTTP2 = true ∧
      cfg.responseHeaderTimeout =
        max (Conf.scaleDur (timeOut * Conf.second) 2 5) (2 * Conf.second) ∧
      (Conf.getHttpTransport "" (Pool.newGatherUtilPool timeOut num s).2.1).1 =
        { cfg := cfg, hasProxy := false } ∧
      (Conf.getHttpTransport ""
          (Pool.newGatherUtilPoolWithConfig timeOut num pcfg s).2.1).1 =
        { cfg := cfg, hasProxy := false } := by
  have hT : ¬ ((timeOut * Conf.second) ≤ 0) := by
    have : (0 : Int) < Conf.second := by decide
    simp only [not_le]
    positivity
  have hderive : ∃ cfg,
      Conf.deriveGatherConfig (timeOut * Conf.second) false true = some cfg := by
    simp [Conf.deriveGatherConfig, hT]
  obtain ⟨cfg, hcfg⟩ := hderive
  have hvalid : Conf.validationErrors cfg = [] :=
    Conf.validationErrors_derive _ _ _ _ hcfg
  have hstate : Pool.initFastConfigByTimeout timeOut s =
      ({ globalConfig := cfg, transportNoProxy := none }, Conf.SetConfigResult.ok) := by
    simp [Pool.initFastConfigByTimeout, Conf.setGatherConfigByClientTimeout, hcfg,
      Conf.setGatherConfig, hvalid]
  refine ⟨cfg, hcfg, ?_, ?_, ?_, ?_, ?_, ?_, ?_, ?_, ?_⟩
  · simp [Pool.newGatherUtilPool, hstate]
  · simp [Pool.newGatherUtilPool, hstate]
  · simp [Pool.newGatherUtilPoolWithConfig, hstate]
  · simp [Pool.newGatherUtilPoolWithConfig, hstate]
  · simp only [Conf.deriveGatherConfig, if_neg hT, Option.some.injEq] at hcfg
    subst hcfg; rfl
  · simp only [Conf.deriveGatherConfig, if_neg hT, Option.some.injEq] at hcfg
    subst hcfg; rfl
  · simp only [Conf.deriveGatherConfig, if_neg hT, Option.some.injEq] at hcfg
    subst hcfg; rfl
  · simp [Pool.newGatherUtilPool, hstate, Conf.getHttpTransport]
  · simp [Pool.newGatherUtilPoolWithConfig, hstate, Conf.getHttpTransport]

/-- Witness for C10 with a 30 s pool built over a registry currently
holding the example slow profile, covering both constructors (the
`WithConfig` one is instantiated at the default pool configuration). -/
theorem claim_C10_pool_overwrites_global_config_witness :
    (1 : Int) ≤ 30 ∧
    ∃ cfg, Conf.deriveGatherConfig (30 * Conf.second) false true = some cfg ∧
      (Pool.newGatherUtilPool 30 5
          { globalConfig := Conf.exampleConfig, transportNoProxy := none }).2.1 =
        { globalConfig := cfg, transportNoProxy := none } ∧
      (Pool.newGatherUtilPool 30 5
          { globalConfig := Conf.exampleConfig, transportNoProxy := none }).2.2 =
        Conf.SetConfigResult.ok ∧
      (Pool.newGatherUtilPoolWithConfig 30 5 Pool.defaultPoolConfig
          { globalConfig := Conf.exampleConfig, transportNoProxy := none }).2.1 =
        { globalConfig := cfg, transportNoProxy := none } ∧
      (Pool.newGatherUtilPoolWithConfig 30 5 Pool.defaultPoolConfig
          { globalConfig := Conf.exampleConfig, transportNoProxy := none }).2.2 =
        Conf.SetConfigResult.ok ∧
      cfg.disableCompression = true ∧
      cfg.forceAttemptHTTP2 = true ∧
      cfg.responseHeaderTimeout =
        max (Conf.scaleDur (30 * Conf.second) 2 5) (2 * Conf.second) ∧
      (Conf.getHttpTransport ""
          (Pool.newGatherUtilPool 30 5
            { globalConfig := Conf.exampleConfig, transportNoProxy := none }).2.1).1 =
        { cfg := cfg, hasProxy := false } ∧
      (Conf.getHttpTransport ""
          (Pool.newGatherUtilPoolWithConfig 30 5 Pool.defaultPoolConfig
            { globalConfig := Conf.exampleConfig, transportNoProxy := none }).2.1).1 =
        { cfg := cfg, hasProxy := false } :=
  ⟨by decide,
    claim_C10_pool_overwrites_global_config
      { globalConfig := Conf.exampleConfig, transportNoProxy := none } 30 5
      Pool.defaultPoolConfig (by decide)⟩

/-- An idle caller carries no leased index. -/
theorem Pool.leasedIdx_cons_idle {n : ℕ} (rest : Multiset (Pool.Phase n)) :
    Pool.leasedIdx (Pool.Phase.idle ::ₘ rest) = Pool.leasedIdx rest :=
  Multiset.filterMap_cons_none _ _ rfl

/-- A scanning caller carries no leased index. -/
theorem Pool.leasedIdx_cons_scanning {n : ℕ} (rest : Multiset (Pool.Phase n)) :
    Pool.leasedIdx (Pool.Phase.scanning ::ₘ rest) = Pool.leasedIdx rest :=
  Multiset.filterMap_cons_none _ _ rfl

/-- A caller that has only observed an entry carries no leased index
yet. -/
theorem Pool.leasedIdx_cons_observed {n : ℕ} (i : Fin n)
    (rest : Multiset (Pool.Phase n)) :
    Pool.leasedIdx (Pool.Phase.observed i ::ₘ rest) = Pool.leasedIdx rest :=
  Multiset.filterMap_cons_none _ _ rfl

/-- A caller leasing `i` contributes exactly `i`. -/
theorem Pool.leasedIdx_cons_leased {n : ℕ} (i : Fin n)
    (rest : Multiset (Pool.Phase n)) :
    Pool.leasedIdx (Pool.Phase.leased i ::ₘ rest) = i ::ₘ Pool.leasedIdx rest :=
  Multiset.filterMap_cons_some _ _ _ rfl

/-- Counting non-idle callers: an idle head does not count. -/
theorem Pool.countP_cons_idle {n : ℕ} (rest : Multiset (Pool.Phase n)) :
    (Pool.Phase.idle ::ₘ rest).countP (fun p => ¬ p = Pool.Phase.idle) =
      rest.countP (fun p => ¬ p = Pool.Phase.idle) := by
  rw [Multiset.countP_cons_of_neg]
  simp

/-- Counting non-idle callers: a scanning head counts once. -/
theorem Pool.countP_cons_scanning {n : ℕ} (rest : Multiset (Pool.Phase n)) :
    (Pool.Phase.scanning ::ₘ rest).countP (fun p => ¬ p = Pool.Phase.idle) =
      rest.countP (fun p => ¬ p = Pool.Phase.idle) + 1 := by
  rw [Multiset.countP_cons_of_pos]
  simp

/-- Counting non-idle callers: an observing head counts once. -/
theorem Pool.countP_cons_observed {n : ℕ} (i : Fin n)
    (rest : Multiset (Pool.Phase n)) :
    (Pool.Phase.observed i ::ₘ rest).countP (fun p => ¬ p = Pool.Phase.idle) =
      rest.countP (fun p => ¬ p = Pool.Phase.idle) + 1 := by
  rw [Multiset.countP_cons_of_pos]
  simp

/-- Counting non-idle callers: a leasing head counts once. -/
theorem Pool.countP_cons_leased {n : ℕ} (i : Fin n)
    (rest : Multiset (Pool.Phase n)) :
    (Pool.Phase.leased i ::ₘ rest).countP (fun p => ¬ p = Pool.Phase.idle) =
      rest.countP (fun p => ¬ p = Pool.Phase.idle) + 1 := by
  rw [Multiset.countP_cons_of_pos]
  simp

/-- Every leased index is held by a non-idle caller, so the number of
simultaneous leases (with multiplicity — duplicates included) is bounded
by the number of callers inside an exchange. -/
theorem Pool.card_leasedIdx_le_countP {n : ℕ} (ms : Multiset (Pool.Phase n)) :
    Multiset.card (Pool.leasedIdx ms) ≤
      ms.countP (fun p => ¬ p = Pool.Phase.idle) := by
  induction ms using Multiset.induction_on with
  | empty =>
    simp [Pool.leasedIdx]
  | cons a s ih =>
    cases a with
    | idle =>
      rw [Pool.leasedIdx_cons_idle, Pool.countP_cons_idle]
      exact ih
    | scanning =>
      rw [Pool.leasedIdx_cons_scanning, Pool.countP_cons_scanning]
      omega
    | observed i =>
      rw [Pool.leasedIdx_cons_observed, Pool.countP_cons_observed]
      omega
    | leased i =>
      rw [Pool.leasedIdx_cons_leased, Pool.countP_cons_leased,
        Multiset.card_cons]
      omega

/-- The freshly constructed pool satisfies the bookkeeping invariant. -/
theorem Pool.inv_initSt (useSem : Bool) (n ncallers : ℕ) :
    Pool.Inv useSem (Pool.initSt n ncallers) := by
  constructor
  · intro j hj
    exact absurd (Finset.mem_univ j) hj
  · intro _
    rw [Pool.initSt]
    simp only
    have hcount : (Multiset.replicate ncallers (Pool.Phase.idle : Pool.Phase n)).countP
        (fun p => ¬ p = Pool.Phase.idle) = 0 := by
      rw [Multiset.countP_eq_zero]
      intro a ha
      simp [Multiset.eq_of_mem_replicate ha]
    rw [hcount]
    omega

/-- Each interleaved step of the pool exchange methods preserves the
bookkeeping invariant: an index leaves the free set only into a lease,
releases restore it, and the semaphore accounting is exact. -/
theorem Pool.step_preserves_inv {useSem : Bool} {n : ℕ} {s s' : Pool.PoolSt n}
    (hstep : Pool.Step useSem s s') (hinv : Pool.Inv useSem s) :
    Pool.Inv useSem s' := by
  obtain ⟨h1, h2⟩ := hinv
  cases hstep with
  | acquirePermit m free rest husem =>
    simp only [Pool.leasedIdx_cons_idle] at h1
    simp only [Pool.countP_cons_idle] at h2
    refine ⟨?_, ?_⟩
    · intro j hj
      rw [Pool.leasedIdx_cons_scanning]
      exact h1 j hj
    · intro hu
      simp only [Pool.countP_cons_scanning]
      have := h2 hu
      omega
  | enterScanNoSem m free rest husem =>
    simp only [Pool.leasedIdx_cons_idle] at h1
    refine ⟨?_, ?_⟩
    · intro j hj
      rw [Pool.leasedIdx_cons_scanning]
      exact h1 j hj
    · intro hu
      rw [husem] at hu
      exact absurd hu (by simp)
  | scanObserve m free rest i hi =>
    simp only [Pool.leasedIdx_cons_scanning] at h1
    simp only [Pool.countP_cons_scanning] at h2
    refine ⟨?_, ?_⟩
    · intro j hj
      rw [Pool.leasedIdx_cons_observed]
      exact h1 j hj
    · intro hu
      simp only [Pool.countP_cons_observed]
      exact h2 hu
  | scanLease m free rest i =>
    simp only [Pool.leasedIdx_cons_observed] at h1
    simp only [Pool.countP_cons_observed] at h2
    refine ⟨?_, ?_⟩
    · intro j hj
      rw [Pool.leasedIdx_cons_leased]
      by_cases hji : j = i
      · subst hji
        exact Multiset.mem_cons_self j _
      · have hjf : j ∉ free := fun hmem =>
          hj (Finset.mem_erase.mpr ⟨hji, hmem⟩)
        exact Multiset.mem_cons_of_mem (h1 j hjf)
    · intro hu
      simp only [Pool.countP_cons_leased]
      exact h2 hu
  | scanTimeout m free rest =>
    simp only [Pool.leasedIdx_cons_scanning] at h1
    simp only [Pool.countP_cons_scanning] at h2
    refine ⟨?_, ?_⟩
    · intro j hj
      rw [Pool.leasedIdx_cons_idle]
      exact h1 j hj
    · intro hu
      simp only [Pool.countP_cons_idle, hu, if_true]
      have := h2 hu
      omega
  | finish m free rest i =>
    simp only [Pool.leasedIdx_cons_leased] at h1
    simp only [Pool.countP_cons_leased] at h2
    refine ⟨?_, ?_⟩
    · intro j hj
      rw [Pool.leasedIdx_cons_idle]
      have hji : ¬ j = i := fun hji => hj (hji ▸ Finset.mem_insert_self i free)
      have hjf : j ∉ free := fun hmem => hj (Finset.mem_insert_of_mem hmem)
      have := h1 j hjf
      rw [Multiset.mem_cons] at this
      rcases this with hcase | hcase
      · exact absurd hcase hji
      · exact hcase
    · intro hu
      simp only [Pool.countP_cons_idle, hu, if_true]
      have := h2 hu
      omega

/-- Every reachable pool state satisfies the bookkeeping invariant. -/
theorem Pool.reachable_inv {useSem : Bool} {n ncallers : ℕ} {s : Pool.PoolSt n}
    (h : Pool.Reachable useSem n ncallers s) : Pool.Inv useSem s := by
  induction h with
  | init => exact Pool.inv_initSt useSem n ncallers
  | step _ hstep ih => exact Pool.step_preserves_inv hstep ih

/-- Counterexample to claim C1 as stated: with the semaphore disabled
(`IsUseSemaphore = false`, selectable through
`NewGatherUtilPoolWithConfig` — `getValidatedConfig` never corrects that
field), the unlocked Range-then-Delete scan of `unUsed` admits an
interleaving in which two callers both read the entry `(0, true)` before
either delete lands, and both lease instance 0 of a pool of size 1: a
reachable state of the race-faithful model holds 2 > 1 simultaneous
leases. -/
theorem claim_C1_counterexample :
    Pool.Reachable false 1 2
      ⟨1, (∅ : Finset (Fin 1)),
        Pool.Phase.leased (0 : Fin 1) ::ₘ Pool.Phase.leased (0 : Fin 1) ::ₘ 0⟩ ∧
    Multiset.card (Pool.leasedIdx
      (Pool.Phase.leased (0 : Fin 1) ::ₘ Pool.Phase.leased (0 : Fin 1) ::ₘ 0)) = 2 ∧
    ¬ (Multiset.card (Pool.leasedIdx
      (Pool.Phase.leased (0 : Fin 1) ::ₘ Pool.Phase.leased (0 : Fin 1) ::ₘ 0)) ≤ 1) := by
  refine ⟨?_, rfl, by decide⟩
  have h0 : Pool.Reachable false 1 2 (Pool.initSt 1 2) := Pool.Reachable.init
  have h1 : Pool.Reachable false 1 2
      ⟨1, Finset.univ, Pool.Phase.scanning ::ₘ Pool.Phase.idle ::ₘ 0⟩ :=
    h0.step (Pool.Step.enterScanNoSem 1 Finset.univ (Pool.Phase.idle ::ₘ 0) rfl)
  rw [Multiset.cons_swap] at h1
  have h2 : Pool.Reachable false 1 2
      ⟨1, Finset.univ, Pool.Phase.scanning ::ₘ Pool.Phase.scanning ::ₘ 0⟩ :=
    h1.step (Pool.Step.enterScanNoSem 1 Finset.univ (Pool.Phase.scanning ::ₘ 0) rfl)
  have h3 : Pool.Reachable false 1 2
      ⟨1, Finset.univ, Pool.Phase.observed 0 ::ₘ Pool.Phase.scanning ::ₘ 0⟩ :=
    h2.step (Pool.Step.scanObserve 1 Finset.univ (Pool.Phase.scanning ::ₘ 0) 0
      (Finset.mem_univ 0))
  rw [Multiset.cons_swap] at h3
  have h4 : Pool.Reachable false 1 2
      ⟨1, Finset.univ, Pool.Phase.observed 0 ::ₘ Pool.Phase.observed 0 ::ₘ 0⟩ :=
    h3.step (Pool.Step.scanObserve 1 Finset.univ (Pool.Phase.observed 0 ::ₘ 0) 0
      (Finset.mem_univ 0))
  have h5 : Pool.Reachable false 1 2
      ⟨1, Finset.univ.erase 0,
        Pool.Phase.leased 0 ::ₘ Pool.Phase.observed 0 ::ₘ 0⟩ :=
    h4.step (Pool.Step.scanLease 1 Finset.univ (Pool.Phase.observed 0 ::ₘ 0) 0)
  rw [Multiset.cons_swap] at h5
  have h6 : Pool.Reachable false 1 2
      ⟨1, (Finset.univ.erase 0).erase 0,
        Pool.Phase.leased 0 ::ₘ Pool.Phase.leased 0 ::ₘ 0⟩ :=
    h5.step (Pool.Step.scanLease 1 (Finset.univ.erase 0)
      (Pool.Phase.leased 0 ::ₘ 0) 0)
  have hfree : ((Finset.univ.erase (0 : Fin 1)).erase 0) = (∅ : Finset (Fin 1)) := by
    decide
  rwa [hfree] at h6

/-- Claim C1 as amended: every pool exchange operation (`Get`, `GetUtil`,
`Post`, `PostUtil` share one acquire/delegate/release structure, error
paths included) releases what it acquired on every return path — in any
reachable interleaving, once every caller is back outside an exchange
all `n` indices are free again and, with the semaphore, all `n` permits
are back.  With `IsUseSemaphore` enabled (the default), at no point do
more than `n` callers simultaneously hold a leased instance, because
every lease holder also holds one of the `n` permits; without the
semaphore the race exhibited by the counterexample breaks the bound. -/
theorem claim_C1_pool_lease_invariant {n ncallers : ℕ} (useSem : Bool)
    (s : Pool.PoolSt n) (h : Pool.Reachable useSem n ncallers s) :
    (useSem = true → Multiset.card (Pool.leasedIdx s.callers) ≤ n) ∧
    ((∀ c ∈ s.callers, c = Pool.Phase.idle) →
      s.free = Finset.univ ∧ (useSem = true → s.sem = n)) := by
  obtain ⟨h1, h2⟩ := Pool.reachable_inv h
  constructor
  · intro hu
    have hsem := h2 hu
    have hle := Pool.card_leasedIdx_le_countP s.callers
    omega
  · intro hidle
    have hleased : Pool.leasedIdx s.callers = 0 := by
      rw [Multiset.eq_zero_iff_forall_not_mem]
      intro i hi
      rw [Pool.leasedIdx, Multiset.mem_filterMap] at hi
      obtain ⟨p, hp, hp2⟩ := hi
      rw [hidle p hp] at hp2
      exact Option.noConfusion hp2
    constructor
    · refine Finset.eq_univ_of_forall (fun j => ?_)
      by_contra hj
      have := h1 j hj
      rw [hleased] at this
      exact absurd this (Multiset.not_mem_zero j)
    · intro hu
      have hcount : s.callers.countP (fun p => ¬ p = Pool.Phase.idle) = 0 := by
        rw [Multiset.countP_eq_zero]
        intro a ha
        simp [hidle a ha]
      have := h2 hu
      omega

/-- Witness for the amended C1: the state of a semaphore-enabled pool of
size 2 with two client goroutines after one caller took a permit,
observed index 0 and leased it. -/
theorem claim_C1_pool_lease_invariant_witness :
    ((true = true) → Multiset.card (Pool.leasedIdx
        (Pool.Phase.leased (0 : Fin 2) ::ₘ Pool.Phase.idle ::ₘ 0)) ≤ 2) ∧
    ((∀ c ∈ (Pool.Phase.leased (0 : Fin 2) ::ₘ Pool.Phase.idle ::ₘ 0),
        c = Pool.Phase.idle) →
      Finset.univ.erase (0 : Fin 2) = Finset.univ ∧ (true = true → (1 : ℕ) = 2)) := by
  have h0 : Pool.Reachable true 2 2 (Pool.initSt 2 2) := Pool.Reachable.init
  have hstep1 : Pool.Step true (Pool.initSt 2 2)
      ⟨1, Finset.univ, Pool.Phase.scanning ::ₘ Pool.Phase.idle ::ₘ 0⟩ :=
    Pool.Step.acquirePermit 1 Finset.univ (Pool.Phase.idle ::ₘ 0) rfl
  have hstep2 : Pool.Step true
      (⟨1, Finset.univ, Pool.Phase.scanning ::ₘ Pool.Phase.idle ::ₘ 0⟩ : Pool.PoolSt 2)
      ⟨1, Finset.univ, Pool.Phase.observed 0 ::ₘ Pool.Phase.idle ::ₘ 0⟩ :=
    Pool.Step.scanObserve 1 Finset.univ (Pool.Phase.idle ::ₘ 0) 0 (Finset.mem_univ 0)
  have hstep3 : Pool.Step true
      (⟨1, Finset.univ, Pool.Phase.observed 0 ::ₘ Pool.Phase.idle ::ₘ 0⟩ : Pool.PoolSt 2)
      ⟨1, Finset.univ.erase 0, Pool.Phase.leased 0 ::ₘ Pool.Phase.idle ::ₘ 0⟩ :=
    Pool.Step.scanLease 1 Finset.univ (Pool.Phase.idle ::ₘ 0) 0
  exact claim_C1_pool_lease_invariant true _
    (((h0.step hstep1).step hstep2).step hstep3)
